import Mathlib

/-!
# The health handler of the mjl health checker

A shallow embedding of `src/main.go`: the endpoint checker `checkEndpoint`
(lines 155-181) with Go's defer/recover made explicit, and the handler
`health` (lines 128-153) as an interleaving machine of one handler goroutine
and one checker goroutine per endpoint that communicate over the buffered
channel `statusc`.

Standard-library calls are modelled by what they do to the values the program
observes:
* `http.NewRequest` returns `(req, nil)` or `(nil, err)`;
* `(*http.Request).WithContext` copies `*r`, so it dereferences its receiver;
* `http.DefaultClient.Do` returns `(resp, nil)` or an error (deadline expiry
  and cancellation of the context are errors of this call);
* `http.Error(w, msg, code)` is `w.WriteHeader(code); fmt.Fprintln(w, msg)`;
* `fmt.Fprintln(w, s)` writes `s` followed by a newline, and the first write
  on a `ResponseWriter` without `WriteHeader` sends status 200;
* `strings.Join` concatenates the elements with the separator in between.
The response is what the handler writes to its `ResponseWriter`.
-/

namespace Health

/-! ## Data model -/

/-- Go `type endpoint struct { URL string; Name string }` (lines 18-21). -/
structure endpoint where
  URL : String
  Name : String
deriving DecidableEq, Repr

/-- Go `type result struct { endpoint; OK bool }` (lines 123-126). -/
structure result extends endpoint where
  OK : Bool
deriving DecidableEq, Repr

/-- The value a goroutine panics with: the `xerror` wrapper raised by `xcheck`,
or a Go runtime error. -/
inductive PanicValue where
  | xerror (msg : String)
  | runtimeError (msg : String)
deriving DecidableEq, Repr

/-- The fields of `*http.Response` the checker reads. -/
structure HTTPResponse where
  StatusCode : Int
  Status : String
deriving DecidableEq, Repr

/-- What the outside world answers to one checker: the outcome of
`http.NewRequest("GET", ep.URL, nil)` and of `http.DefaultClient.Do(req)`.
`Except.error` carries the text of the Go error. -/
structure Probe where
  newRequest : Except String Unit
  clientDo : Except String HTTPResponse

/-- Observable actions of one checker goroutine. -/
inductive Event where
  | send (r : result)
  | log (line : String)
  | closeBody
deriving DecidableEq, Repr

/-! ## defer / recover -/

/-- What one deferred call did: its events, whether it called `recover()`, and
the value it panicked with itself, if any. -/
structure DeferOut where
  events : List Event
  recovered : Bool
  panic : Option PanicValue

/-- A deferred call; its argument is the panic in flight when it runs. -/
abbrev Deferred := Option PanicValue → DeferOut

/-- Go runs the deferred calls of a returning or panicking function, most
recently deferred first. A call that invokes `recover()` stops the panic in
flight; a call that panics replaces it. The result is the events emitted and
the panic that leaves the function. -/
def runDeferred : List Deferred → Option PanicValue → List Event → List Event × Option PanicValue
  | [], cur, evs => (evs, cur)
  | d :: ds, cur, evs =>
    let o := d cur
    let cur1 := match o.panic with
      | some p => some p
      | none => if o.recovered then none else cur
    runDeferred ds cur1 (evs ++ o.events)

/-! ## checkEndpoint (lines 155-181) -/

/-- The closure `xcheck` (lines 166-170): panics with an `xerror` when `err` is
not nil. `none` is a normal return. -/
def xcheck (err : Option String) (action : String) : Option PanicValue :=
  match err with
  | some e => some (PanicValue.xerror (action ++ ": " ++ e))
  | none => none

/-- Text of a panic value as `%s` prints it. -/
def PanicValue.text : PanicValue → String
  | .xerror m => m
  | .runtimeError m => "runtime error: " ++ m

/-- The deferred closure of lines 156-162: `e := recover()`, send
`result{endpoint: ep, OK: e == nil}` on `statusc`, and log when `e != nil`.
The channel is made on line 134 and never closed, so the send does not panic. -/
def reporter (ep : endpoint) : Deferred := fun cur =>
  let e := cur
  { events := Event.send { toendpoint := ep, OK := e.isNone } ::
      (match e with
       | some v => [Event.log ("checking endpoint " ++ ep.Name ++ " " ++ ep.URL ++ ": " ++ v.text)]
       | none => []),
    recovered := true,
    panic := none }

/-- The deferred call of line 177, `defer resp.Body.Close()`. -/
def closeBody : Deferred := fun _ =>
  { events := [Event.closeBody], recovered := false, panic := none }

/-- Result of running the statements of a function body: the panic that ended
it (if any) and the deferred calls registered so far, most recent first. -/
structure BodyOut where
  panic : Option PanicValue
  defers : List Deferred

/-- Lines 156-180 of `checkEndpoint`, statement by statement. -/
def checkBody (ep : endpoint) (p : Probe) : BodyOut :=
  -- line 156: defer func() { ... }()
  let d0 : List Deferred := [reporter ep]
  -- line 172: req, err := http.NewRequest("GET", ep.URL, nil)
  match p.newRequest with
  | .error _ =>
    -- line 173: req is nil, req.WithContext(ctx) dereferences it
    { panic := some (PanicValue.runtimeError "invalid memory address or nil pointer dereference"),
      defers := d0 }
  | .ok _ =>
    -- line 174: xcheck(err, "http get") with err == nil
    match xcheck none "http get" with
    | some v => { panic := some v, defers := d0 }
    | none =>
      -- line 175: resp, err := http.DefaultClient.Do(req)
      match p.clientDo with
      | .error err =>
        -- line 176: xcheck(err, "http get")
        { panic := xcheck (some err) "http get", defers := d0 }
      | .ok resp =>
        -- line 177: defer resp.Body.Close()
        let d1 : List Deferred := closeBody :: d0
        -- line 178: Go integer division truncates toward zero
        if resp.StatusCode.tdiv 100 ≠ 2 then
          -- line 179
          { panic := xcheck (some ("status " ++ toString resp.StatusCode ++ " " ++ resp.Status))
              "http response",
            defers := d1 }
        else
          { panic := none, defers := d1 }

/-- One complete invocation of `checkEndpoint`. -/
structure CheckRun where
  events : List Event
  escaped : Option PanicValue

/-- Go `func checkEndpoint(ctx, ep, statusc)`: run the body, then the deferred
calls. -/
def checkEndpoint (ep : endpoint) (p : Probe) : CheckRun :=
  let out := checkBody ep p
  let fin := runDeferred out.defers out.panic []
  { events := fin.1, escaped := fin.2 }

/-- The results a run sent on `statusc`, in order. -/
def sends : List Event → List result
  | [] => []
  | Event.send r :: es => r :: sends es
  | _ :: es => sends es

/-- The log lines of a run. -/
def logged : List Event → List String
  | [] => []
  | Event.log l :: es => l :: logged es
  | _ :: es => logged es

/-! ## The response writer and the library calls of the handler -/

/-- The part of `http.ResponseWriter` the handler touches: the status code
sent (if the header was written) and the body bytes written. -/
structure ResponseWriter where
  status : Option Nat
  body : String
deriving DecidableEq, Repr

/-- A fresh response writer: nothing sent yet. -/
def ResponseWriter.fresh : ResponseWriter := { status := none, body := "" }

/-- Go `w.WriteHeader(code)`: the first call fixes the status code. -/
def ResponseWriter.WriteHeader (w : ResponseWriter) (code : Nat) : ResponseWriter :=
  match w.status with
  | some _ => w
  | none => { w with status := some code }

/-- Go `w.Write(b)`: sends status 200 first when no header was written. -/
def ResponseWriter.Write (w : ResponseWriter) (b : String) : ResponseWriter :=
  let w1 := w.WriteHeader 200
  { w1 with body := w1.body ++ b }

/-- Go `fmt.Fprintln(w, s)`: writes `s` and a newline. -/
def Fprintln (w : ResponseWriter) (s : String) : ResponseWriter :=
  w.Write (s ++ "\n")

/-- Go `http.Error(w, error, code)`: `w.WriteHeader(code)` followed by
`fmt.Fprintln(w, error)` (the header fields it sets are not modelled). -/
def httpError (w : ResponseWriter) (error : String) (code : Nat) : ResponseWriter :=
  Fprintln (w.WriteHeader code) error

/-- Go `strings.Join(elems, sep)`. -/
def stringsJoin : List String → String → String
  | [], _ => ""
  | [a], _ => a
  | a :: b :: rest, sep => a ++ sep ++ stringsJoin (b :: rest) sep

/-- Go `http.StatusMethodNotAllowed`. -/
def StatusMethodNotAllowed : Nat := 405

/-- Go `http.StatusInternalServerError`. -/
def StatusInternalServerError : Nat := 500

/-! ## health (lines 128-153) -/

/-- One loop iteration of lines 143-146: `r := <-statusc` has been received;
append `r.Name` to `failed` when `!r.OK`. -/
def collectOne (failed : List String) (r : result) : List String :=
  if !r.OK then failed ++ [r.Name] else failed

/-- Lines 141-147 on a given arrival sequence: `var failed []string` and the
receive loop. -/
def collectFailed (arrivals : List result) : List String :=
  arrivals.foldl collectOne []

/-- Lines 148-152: the response for a given `failed` slice. -/
def render (w : ResponseWriter) (failed : List String) : ResponseWriter :=
  if failed.length > 0 then
    httpError w ("500 internal server error - unhealthy: " ++ stringsJoin failed ", ")
      StatusInternalServerError
  else
    Fprintln w "ok"

/-- Line 129: the guard `r.Method != "GET" && r.Method != "HEAD"`. -/
def methodRejected (method : String) : Bool :=
  method != "GET" && method != "HEAD"

/-- A checker to spawn: the endpoint and what the world will answer to it. -/
abbrev Task := endpoint × Probe

/-- The request and the process-wide configuration one run of the handler
reads: `r.Method` and `config.Endpoints` (each with the answer its checker
will get). -/
structure Request where
  Method : String
  Endpoints : List Task

/-- Where the handler goroutine stands. -/
inductive Phase where
  | entry
  | spawning (rest : List Task)
  | collecting (todo : Nat)
  | returned

/-- State of one request: the handler goroutine, the channel `statusc` and the
checker goroutines. `received`, `spawned` and `logs` are history variables:
they record what happened and influence nothing. -/
structure HState where
  phase : Phase
  w : ResponseWriter
  cap : Nat
  statusc : List result
  running : List Task
  failed : List String
  received : List result
  spawned : Nat
  logs : List String

/-- The state when `health` is entered. -/
def HState.init : HState :=
  { phase := Phase.entry, w := ResponseWriter.fresh, cap := 0, statusc := [], running := [],
    failed := [], received := [], spawned := 0, logs := [] }

/-- One step of the handler goroutine; `none` when it is blocked on the
channel receive or has returned. -/
def handlerStep (rq : Request) (st : HState) : Option HState :=
  match st.phase with
  | Phase.entry =>
    if methodRejected rq.Method then
      -- lines 130-131
      some { st with w := httpError st.w "method not allowed" StatusMethodNotAllowed,
                     phase := Phase.returned }
    else
      -- line 134: statusc := make(chan result, len(config.Endpoints))
      some { st with cap := rq.Endpoints.length, statusc := [],
                     phase := Phase.spawning rq.Endpoints }
  | Phase.spawning (t :: rest) =>
    -- line 138: go checkEndpoint(ctx, ep, statusc)
    some { st with running := st.running ++ [t], spawned := st.spawned + 1,
                   phase := Phase.spawning rest }
  | Phase.spawning [] =>
    -- line 141: var failed []string; line 142: for range config.Endpoints
    some { st with failed := [], phase := Phase.collecting rq.Endpoints.length }
  | Phase.collecting (k + 1) =>
    -- line 143: r := <-statusc blocks while the channel is empty
    match st.statusc with
    | [] => none
    | r :: rest =>
      some { st with statusc := rest, failed := collectOne st.failed r,
                     received := st.received ++ [r], phase := Phase.collecting k }
  | Phase.collecting 0 =>
    -- lines 148-152
    some { st with w := render st.w st.failed, phase := Phase.returned }
  | Phase.returned => none

/-- The checker goroutine at position `i` of the running ones runs to
completion; `none` when there is no such goroutine or its send on `statusc`
would block because the buffer is full. A checker shares nothing with the
other goroutines but the channel, so its run is taken as one step, placed at
its send. -/
def checkerStep (st : HState) (i : Nat) : Option HState :=
  match st.running[i]? with
  | none => none
  | some t =>
    let run := checkEndpoint t.1 t.2
    let out := sends run.events
    if st.statusc.length + out.length ≤ st.cap then
      some { st with running := st.running.eraseIdx i, statusc := st.statusc ++ out,
                     logs := st.logs ++ logged run.events }
    else none

/-- A scheduling choice: let the handler or the `i`-th running checker move. -/
inductive Action where
  | handler
  | checker (i : Nat)
deriving DecidableEq, Repr

/-- One step of the system under a scheduling choice. -/
def step (rq : Request) (st : HState) : Action → Option HState
  | Action.handler => handlerStep rq st
  | Action.checker i => checkerStep st i

/-- Run a schedule; `none` when it asks for a step that cannot be taken. -/
def exec (rq : Request) (st : HState) : List Action → Option HState
  | [] => some st
  | a :: as =>
    match step rq st a with
    | none => none
    | some st1 => exec rq st1 as

/-- Go `func health(w, r)` under a schedule, from entry. -/
def health (rq : Request) (sched : List Action) : Option HState :=
  exec rq HState.init sched

/-- The handler has returned. -/
def HState.done (st : HState) : Bool :=
  match st.phase with
  | Phase.returned => true
  | _ => false

/-- What the checker of one task sends on `statusc`. -/
def taskOut (t : Task) : List result :=
  sends (checkEndpoint t.1 t.2).events

/-- What the checkers of the given tasks send, in task order. -/
def outcomes (ts : List Task) : List result :=
  ts.flatMap taskOut

/-- Steps the system can still take from a state: those of the handler plus
one per checker that has not reported yet. -/
def HState.fuel (rq : Request) (st : HState) : Nat :=
  match st.phase with
  | Phase.entry => 3 * rq.Endpoints.length + 3
  | Phase.spawning rest => 2 * rest.length + rq.Endpoints.length + 2 + st.running.length
  | Phase.collecting k => k + 1 + st.running.length
  | Phase.returned => 0

/-- The invariant of one request, phase by phase. -/
def Inv (rq : Request) (st : HState) : Prop :=
  match st.phase with
  | Phase.entry =>
    st.cap = 0 ∧ st.statusc = [] ∧ st.running = [] ∧ st.received = [] ∧ st.spawned = 0 ∧
      st.w = ResponseWriter.fresh
  | Phase.spawning rest =>
    methodRejected rq.Method = false ∧ st.cap = rq.Endpoints.length ∧ st.received = [] ∧
      st.w = ResponseWriter.fresh ∧
      ∃ pre, rq.Endpoints = pre ++ rest ∧ st.spawned = pre.length ∧
        ((st.statusc : Multiset result) + (outcomes st.running : Multiset result)
          = (outcomes pre : Multiset result))
  | Phase.collecting k =>
    methodRejected rq.Method = false ∧ st.cap = rq.Endpoints.length ∧
      st.w = ResponseWriter.fresh ∧ st.spawned = rq.Endpoints.length ∧
      k + st.received.length = rq.Endpoints.length ∧
      st.failed = collectFailed st.received ∧
      ((st.received : Multiset result) + (st.statusc : Multiset result)
          + (outcomes st.running : Multiset result)
        = (outcomes rq.Endpoints : Multiset result))
  | Phase.returned =>
    st.statusc = [] ∧ st.running = [] ∧
    ((methodRejected rq.Method = true ∧ st.spawned = 0 ∧ st.received = [] ∧
        st.w = httpError ResponseWriter.fresh "method not allowed" StatusMethodNotAllowed) ∨
     (methodRejected rq.Method = false ∧ st.cap = rq.Endpoints.length ∧
        st.spawned = rq.Endpoints.length ∧
        (st.received : Multiset result) = (outcomes rq.Endpoints : Multiset result) ∧
        st.w = render ResponseWriter.fresh (collectFailed st.received)))

/-! ## Reading the failure body -/

/-- The spec's classification of one check: success is a response received
with a status code in `[200, 300)`; a request-construction error, a transport
or deadline error and any other status code are failures. -/
def Probe.healthy (p : Probe) : Bool :=
  match p.newRequest, p.clientDo with
  | Except.ok _, Except.ok resp => decide (200 ≤ resp.StatusCode ∧ resp.StatusCode < 300)
  | _, _ => false

/-- Put `c` in front of the first item of a list of items. -/
def consHead (c : Char) : List (List Char) → List (List Char)
  | [] => [[c]]
  | item :: items => (c :: item) :: items

/-- Split on the separator `", "`, left to right, as Go `strings.Split` does. -/
def splitItems : List Char → List (List Char)
  | [] => [[]]
  | [c] => [[c]]
  | c :: d :: rest =>
    if c = ',' ∧ d = ' ' then [] :: splitItems rest
    else consHead c (splitItems (d :: rest))

/-- The text contains the separator `", "`. -/
def hasCommaSpace : List Char → Bool
  | [] => false
  | [_] => false
  | c :: d :: rest =>
    if c = ',' ∧ d = ' ' then true else hasCommaSpace (d :: rest)

/-- Remove `head` from the front of `cs`, if it is there. -/
def dropHead : List Char → List Char → Option (List Char)
  | [], cs => some cs
  | _ :: _, [] => none
  | h :: hs, c :: cs => if h = c then dropHead hs cs else none

/-- Remove the newline that terminates a line, if there is one. -/
def dropNewline (cs : List Char) : List Char :=
  if cs.getLast? = some '\n' then cs.dropLast else cs

/-- The fixed text that opens the failure body (line 149). -/
def failureHead : String := "500 internal server error - unhealthy: "

/-- The names a client reads off a failure body: the comma-space separated
items after `"unhealthy: "`, up to the newline that ends the line. A body that
does not open with the failure text lists no name. -/
def listedNames (body : String) : List String :=
  match dropHead failureHead.data (dropNewline body.data) with
  | none => []
  | some rest => (splitItems rest).map String.mk

/-- The names of the tasks whose check fails, in configuration order. -/
def failingNames (ts : List Task) : List String :=
  (ts.filter (fun t => !t.2.healthy)).map (fun t => t.1.Name)

/-! ## Concrete requests -/

/-- A server that answers 200. -/
def okServer : Probe :=
  { newRequest := Except.ok (), clientDo := Except.ok { StatusCode := 200, Status := "200 OK" } }

/-- A server that answers 500. -/
def failServer : Probe :=
  { newRequest := Except.ok (),
    clientDo := Except.ok { StatusCode := 500, Status := "500 Internal Server Error" } }

/-- A malformed URL: `http.NewRequest` fails. -/
def badURL : Probe :=
  { newRequest := Except.error "missing protocol scheme",
    clientDo := Except.error "unreachable" }

/-- A server that does not answer before the deadline. -/
def slowServer : Probe :=
  { newRequest := Except.ok (), clientDo := Except.error "context deadline exceeded" }

/-- Scenario A of the spec: `a` answers 200 and `b` answers 500. -/
def scenarioA : Request :=
  { Method := "GET",
    Endpoints := [({ URL := "http://a.example/", Name := "a" }, okServer),
                  ({ URL := "http://b.example/", Name := "b" }, failServer)] }

/-- Scenario A with other URLs and other failure causes, the names and the
outcomes being the same. -/
def scenarioA2 : Request :=
  { Method := "GET",
    Endpoints := [({ URL := "http://10.0.0.1/", Name := "a" }, okServer),
                  ({ URL := "::", Name := "b" }, badURL)] }

/-- Scenario B of the spec: a single endpoint that answers 200. -/
def scenarioB : Request :=
  { Method := "HEAD",
    Endpoints := [({ URL := "http://a.example/", Name := "a" }, okServer)] }

/-- A healthy endpoint named `a` and a failing endpoint named `a, b`. -/
def commaRequest : Request :=
  { Method := "GET",
    Endpoints := [({ URL := "http://a.example/", Name := "a" }, okServer),
                  ({ URL := "http://ab.example/", Name := "a, b" }, failServer)] }

/-- A POST request. -/
def postRequest : Request :=
  { Method := "POST",
    Endpoints := [({ URL := "http://a.example/", Name := "a" }, okServer)] }

/-- A GET request with no endpoint configured. -/
def emptyRequest : Request := { Method := "GET", Endpoints := [] }

/-- Three endpoints, two of them failing. -/
def threeRequest : Request :=
  { Method := "GET",
    Endpoints := [({ URL := "http://a.example/", Name := "a" }, slowServer),
                  ({ URL := "http://b.example/", Name := "b" }, okServer),
                  ({ URL := "::", Name := "c" }, badURL)] }

/-- A schedule for three endpoints in which the checkers report in reverse
order of their start. -/
def reverseSchedule : List Action :=
  [Action.handler, Action.handler, Action.handler, Action.handler, Action.handler,
   Action.checker 2, Action.checker 1, Action.checker 0,
   Action.handler, Action.handler, Action.handler, Action.handler]

/-- The schedule that lets the handler spawn every checker, then lets each
checker report, then lets the handler receive and respond. -/
def fifoSchedule (n : Nat) : List Action :=
  List.replicate (n + 2) Action.handler ++ List.replicate n (Action.checker 0) ++
    List.replicate (n + 1) Action.handler

end Health

namespace Health

/-! ## Facts about checkEndpoint -/

/-- Go's truncating `s/100 == 2` holds exactly for `200 ≤ s < 300`. -/
theorem tdiv_hundred_eq_two (s : Int) : s.tdiv 100 = 2 ↔ 200 ≤ s ∧ s < 300 := by
  by_cases h : 0 ≤ s
  · rw [Int.tdiv_eq_ediv h (by decide)]
    omega
  · have hneg : 0 ≤ -s := by omega
    have h1 : (-s).tdiv 100 = -(s.tdiv 100) := Int.neg_tdiv s 100
    have h2 : 0 ≤ (-s).tdiv 100 := Int.tdiv_nonneg hneg (by decide)
    constructor
    · intro h3
      omega
    · intro h3
      omega

/-- Every run of `checkEndpoint` sends one result, which carries `ep`; no panic
leaves it; and the result is OK exactly when the request was built, the client
returned a response and its status code is in `[200, 300)`. -/
theorem checkEndpoint_sends (ep : endpoint) (p : Probe) :
    ∃ ok : Bool,
      sends (checkEndpoint ep p).events = [{ toendpoint := ep, OK := ok }] ∧
      (checkEndpoint ep p).escaped = none ∧
      (ok = true ↔ ∃ resp, p.newRequest = Except.ok () ∧ p.clientDo = Except.ok resp ∧
        200 ≤ resp.StatusCode ∧ resp.StatusCode < 300) := by
  obtain ⟨nr, cd⟩ := p
  cases nr with
  | error e =>
    refine ⟨false, ?_, rfl, ?_⟩
    · simp [checkEndpoint, checkBody, runDeferred, reporter, sends]
    · simp
  | ok u =>
    cases cd with
    | error e =>
      refine ⟨false, ?_, rfl, ?_⟩
      · simp [checkEndpoint, checkBody, runDeferred, reporter, xcheck, sends]
      · simp
    | ok resp =>
      by_cases hs : resp.StatusCode.tdiv 100 = 2
      · refine ⟨true, ?_, ?_, ?_⟩
        · simp [checkEndpoint, checkBody, runDeferred, reporter, xcheck, closeBody, hs, sends]
        · simp [checkEndpoint, checkBody, runDeferred, reporter, xcheck, closeBody, hs]
        · simp
          exact (tdiv_hundred_eq_two _).1 hs
      · refine ⟨false, ?_, ?_, ?_⟩
        · simp [checkEndpoint, checkBody, runDeferred, reporter, xcheck, closeBody, hs, sends]
        · simp [checkEndpoint, checkBody, runDeferred, reporter, xcheck, closeBody, hs]
        · simp
          intro h1
          by_contra h2
          exact hs ((tdiv_hundred_eq_two _).2 ⟨h1, by omega⟩)

theorem sends_append (a b : List Event) : sends (a ++ b) = sends a ++ sends b := by
  induction a with
  | nil => rfl
  | cons e a ih => cases e <;> simp [sends, ih]

/-- Running deferred calls one list after the other. -/
theorem runDeferred_append (ds es : List Deferred) :
    ∀ (cur : Option PanicValue) (evs : List Event),
      runDeferred (ds ++ es) cur evs
        = runDeferred es (runDeferred ds cur evs).2 (runDeferred ds cur evs).1 := by
  induction ds with
  | nil => intro cur evs; rfl
  | cons d ds ih =>
    intro cur evs
    simp only [List.cons_append, runDeferred]
    exact ih _ _

/-- The reporter, run last with any panic in flight or none, sends one result
for `ep`, OK exactly when nothing is in flight, and stops the panic. -/
theorem runDeferred_reporter (ep : endpoint) (cur : Option PanicValue) (evs : List Event) :
    sends (runDeferred [reporter ep] cur evs).1
        = sends evs ++ [{ toendpoint := ep, OK := cur.isNone }] ∧
      (runDeferred [reporter ep] cur evs).2 = none := by
  cases cur with
  | none => simp [runDeferred, reporter, sends_append, sends]
  | some v => simp [runDeferred, reporter, sends_append, sends]

/-! ## Facts about the collection loop -/

theorem taskOut_length (t : Task) : (taskOut t).length = 1 := by
  obtain ⟨ok, h, _, _⟩ := checkEndpoint_sends t.1 t.2
  simp [taskOut, h]

theorem outcomes_nil : outcomes [] = [] := rfl

theorem outcomes_cons (t : Task) (ts : List Task) :
    outcomes (t :: ts) = taskOut t ++ outcomes ts := by
  simp [outcomes]

theorem outcomes_append (a b : List Task) : outcomes (a ++ b) = outcomes a ++ outcomes b := by
  simp [outcomes]

theorem outcomes_length (ts : List Task) : (outcomes ts).length = ts.length := by
  induction ts with
  | nil => rfl
  | cons t ts ih => simp [outcomes_cons, taskOut_length, ih]; omega

theorem outcomes_eraseIdx (ts : List Task) (i : Nat) (t : Task) (h : ts[i]? = some t) :
    (outcomes ts : Multiset result)
      = (taskOut t : Multiset result) + (outcomes (ts.eraseIdx i) : Multiset result) := by
  induction ts generalizing i with
  | nil => simp at h
  | cons a ts ih =>
    cases i with
    | zero =>
      simp at h
      subst h
      simp [outcomes_cons]
    | succ j =>
      have := ih j (by simpa using h)
      rw [List.eraseIdx_cons_succ, outcomes_cons, outcomes_cons, ← Multiset.coe_add,
        ← Multiset.coe_add, this]
      exact add_left_comm _ _ _

theorem collectFailed_append (a : List result) (r : result) :
    collectFailed (a ++ [r]) = collectOne (collectFailed a) r := by
  simp [collectFailed, List.foldl_append]


theorem inv_init (rq : Request) : Inv rq HState.init := by
  simp [Inv, HState.init]

theorem handlerStep_inv (rq : Request) (st st1 : HState) (hi : Inv rq st)
    (h : handlerStep rq st = some st1) : Inv rq st1 ∧ st1.fuel rq < st.fuel rq := by
  obtain ⟨phase, w, cap, statusc, running, failed, received, spawned, logs⟩ := st
  cases phase with
  | entry =>
    simp only [Inv] at hi
    obtain ⟨h1, h2, h3, h4, h5, h6⟩ := hi
    subst h1 h2 h3 h4 h5 h6
    by_cases hm : methodRejected rq.Method = true
    · simp [handlerStep, hm] at h
      subst h
      simp [Inv, HState.fuel, hm]
    · simp [handlerStep, hm] at h
      subst h
      simp at hm
      simp [Inv, HState.fuel, hm, outcomes_nil]
      omega
  | spawning rest =>
    simp only [Inv] at hi
    obtain ⟨h1, h2, h3, h4, pre, h5, h6, h7⟩ := hi
    cases rest with
    | nil =>
      simp [handlerStep] at h
      subst h
      simp at h5
      subst h5
      simp [Inv, HState.fuel, h1, h2, h3, h4, h6, collectFailed]
      subst h3
      simpa using h7
    | cons t rest =>
      simp [handlerStep] at h
      subst h
      simp [Inv, HState.fuel, h1, h2, h3, h4]
      refine ⟨⟨pre ++ [t], by simp [h5], by simp [h6], ?_⟩, by omega⟩
      have h8 : (statusc ++ outcomes running).Perm (outcomes pre) := by simpa using h7
      rw [outcomes_append, outcomes_append, ← List.append_assoc]
      exact List.Perm.append_right _ h8
  | collecting k =>
    simp only [Inv] at hi
    obtain ⟨h1, h2, h3, h4, h5, h6, h7⟩ := hi
    cases k with
    | zero =>
      simp [handlerStep] at h
      subst h
      have hlen := congrArg Multiset.card h7
      simp [outcomes_length] at hlen h5
      have hs : statusc = [] := List.eq_nil_of_length_eq_zero (by omega)
      have hr : running = [] := List.eq_nil_of_length_eq_zero (by omega)
      subst hs hr
      simp [Inv, HState.fuel, h1, h2, h3, h4, h6]
      simpa [outcomes_nil] using h7
    | succ k =>
      cases statusc with
      | nil => simp [handlerStep] at h
      | cons r rest =>
        simp [handlerStep] at h
        subst h
        simp [Inv, HState.fuel, h1, h2, h3, h4, h6, collectFailed_append]
        refine ⟨by omega, ?_⟩
        simpa using h7
  | returned => simp [handlerStep] at h


theorem checkerStep_inv (rq : Request) (st st1 : HState) (i : Nat) (hi : Inv rq st)
    (h : checkerStep st i = some st1) : Inv rq st1 ∧ st1.fuel rq < st.fuel rq := by
  obtain ⟨phase, w, cap, statusc, running, failed, received, spawned, logs⟩ := st
  unfold checkerStep at h
  simp only at h
  cases hg : running[i]? with
  | none => simp [hg] at h
  | some t =>
    have hlen : i < running.length := by
      by_contra hc
      have : running[i]? = none := List.getElem?_eq_none (by omega)
      simp [this] at hg
    have hel : (running.eraseIdx i).length + 1 = running.length := by
      rw [List.length_eraseIdx]
      simp [hlen]
      omega
    have hms := outcomes_eraseIdx running i t hg
    simp only [hg] at h
    split at h
    · injection h with h
      subst h
      change _ + (taskOut t).length ≤ _ at *
      cases phase with
      | entry =>
        simp only [Inv] at hi
        obtain ⟨h1, h2, h3, h4, h5, h6⟩ := hi
        subst h3
        simp at hlen
      | spawning rest =>
        simp only [Inv] at hi
        obtain ⟨h1, h2, h3, h4, pre, h5, h6, h7⟩ := hi
        simp only [Inv, HState.fuel]
        refine ⟨⟨h1, h2, h3, h4, pre, h5, h6, ?_⟩, by omega⟩
        rw [← h7, hms]
        change ((statusc ++ taskOut t : List result) : Multiset result) + _ = _
        rw [← Multiset.coe_add]
        abel
      | collecting k =>
        simp only [Inv] at hi
        obtain ⟨h1, h2, h3, h4, h5, h6, h7⟩ := hi
        simp only [Inv, HState.fuel]
        refine ⟨⟨h1, h2, h3, h4, h5, h6, ?_⟩, by omega⟩
        rw [← h7, hms]
        change _ + ((statusc ++ taskOut t : List result) : Multiset result) + _ = _
        rw [← Multiset.coe_add]
        abel
      | returned =>
        simp only [Inv] at hi
        obtain ⟨h1, h2, _⟩ := hi
        subst h2
        simp at hlen
    · simp at h

theorem checkerStep_enabled (rq : Request) (st : HState) (i : Nat) (hi : Inv rq st)
    (hlt : i < st.running.length) : (checkerStep st i).isSome = true := by
  obtain ⟨phase, w, cap, statusc, running, failed, received, spawned, logs⟩ := st
  simp only at hlt
  have hg : running[i]? = some (running.get ⟨i, hlt⟩) := by
    simp [List.getElem?_eq_getElem hlt]
  have hms := congrArg Multiset.card (outcomes_eraseIdx running i _ hg)
  have hol := outcomes_length running
  have hfit : statusc.length + (taskOut (running.get ⟨i, hlt⟩)).length ≤ cap := by
    rw [taskOut_length]
    cases phase with
    | entry =>
      simp only [Inv] at hi
      obtain ⟨h1, h2, h3, h4, h5, h6⟩ := hi
      subst h3
      simp at hlt
    | spawning rest =>
      simp only [Inv] at hi
      obtain ⟨h1, h2, h3, h4, pre, h5, h6, h7⟩ := hi
      have h8 := congrArg Multiset.card h7
      have h9 := congrArg List.length h5
      simp [outcomes_length] at h8 h9
      omega
    | collecting k =>
      simp only [Inv] at hi
      obtain ⟨h1, h2, h3, h4, h5, h6, h7⟩ := hi
      have h8 := congrArg Multiset.card h7
      simp [outcomes_length] at h8
      omega
    | returned =>
      simp only [Inv] at hi
      obtain ⟨h1, h2, _⟩ := hi
      subst h2
      simp at hlt
  unfold checkerStep
  simp only [hg]
  change Option.isSome (if statusc.length + (taskOut _).length ≤ cap then _ else _) = true
  rw [if_pos hfit]
  rfl


theorem step_inv (rq : Request) (st st1 : HState) (a : Action) (hi : Inv rq st)
    (h : step rq st a = some st1) : Inv rq st1 ∧ st1.fuel rq < st.fuel rq := by
  cases a with
  | handler => exact handlerStep_inv rq st st1 hi h
  | checker i => exact checkerStep_inv rq st st1 i hi h

theorem exec_inv (rq : Request) (s : List Action) :
    ∀ (st st1 : HState), Inv rq st → exec rq st s = some st1 →
      Inv rq st1 ∧ st1.fuel rq + s.length ≤ st.fuel rq := by
  induction s with
  | nil =>
    intro st st1 hi h
    simp [exec] at h
    subst h
    exact ⟨hi, by simp⟩
  | cons a s ih =>
    intro st st1 hi h
    simp only [exec] at h
    cases hs : step rq st a with
    | none => simp [hs] at h
    | some st2 =>
      simp only [hs] at h
      obtain ⟨hi2, hf2⟩ := step_inv rq st st2 a hi hs
      obtain ⟨hi1, hf1⟩ := ih st2 st1 hi2 h
      refine ⟨hi1, ?_⟩
      simp only [List.length_cons]
      omega

theorem exec_append (rq : Request) (s t : List Action) :
    ∀ st : HState, exec rq st (s ++ t) =
      match exec rq st s with
      | none => none
      | some st1 => exec rq st1 t := by
  induction s with
  | nil => intro st; rfl
  | cons a s ih =>
    intro st
    simp only [List.cons_append, exec]
    cases step rq st a with
    | none => rfl
    | some st2 => exact ih st2

theorem health_inv (rq : Request) (s : List Action) (st : HState) (h : health rq s = some st) :
    Inv rq st ∧ st.fuel rq + s.length ≤ 3 * rq.Endpoints.length + 3 :=
  exec_inv rq s HState.init st (inv_init rq) h

/-- A state whose handler has not returned always has a step to take. -/
theorem progress (rq : Request) (st : HState) (hi : Inv rq st) (hd : st.done = false) :
    ∃ a, (step rq st a).isSome = true := by
  obtain ⟨phase, w, cap, statusc, running, failed, received, spawned, logs⟩ := st
  cases phase with
  | entry =>
    refine ⟨Action.handler, ?_⟩
    simp only [step, handlerStep]
    split <;> rfl
  | spawning rest =>
    refine ⟨Action.handler, ?_⟩
    cases rest <;> rfl
  | collecting k =>
    cases k with
    | zero => exact ⟨Action.handler, rfl⟩
    | succ k =>
      cases statusc with
      | cons r rest => exact ⟨Action.handler, rfl⟩
      | nil =>
        cases running with
        | cons t ts =>
          exact ⟨Action.checker 0, checkerStep_enabled rq _ 0 hi (by simp)⟩
        | nil =>
          exfalso
          simp only [Inv] at hi
          obtain ⟨h1, h2, h3, h4, h5, h6, h7⟩ := hi
          have h8 := congrArg Multiset.card h7
          simp [outcomes_length, outcomes_nil] at h8
          omega
  | returned => simp [HState.done] at hd

/-- From every state of a run the handler can still be brought to return. -/
theorem completion (rq : Request) (n : Nat) :
    ∀ st : HState, Inv rq st → st.fuel rq ≤ n →
      ∃ (s : List Action) (st1 : HState), exec rq st s = some st1 ∧ st1.done = true := by
  induction n with
  | zero =>
    intro st hi hf
    cases hd : st.done with
    | true => exact ⟨[], st, rfl, hd⟩
    | false =>
      obtain ⟨a, ha⟩ := progress rq st hi hd
      obtain ⟨st2, hst2⟩ := Option.isSome_iff_exists.1 ha
      have := (step_inv rq st st2 a hi hst2).2
      omega
  | succ n ih =>
    intro st hi hf
    cases hd : st.done with
    | true => exact ⟨[], st, rfl, hd⟩
    | false =>
      obtain ⟨a, ha⟩ := progress rq st hi hd
      obtain ⟨st2, hst2⟩ := Option.isSome_iff_exists.1 ha
      obtain ⟨hi2, hf2⟩ := step_inv rq st st2 a hi hst2
      obtain ⟨s, st1, hs, hd1⟩ := ih st2 hi2 (by omega)
      refine ⟨a :: s, st1, ?_, hd1⟩
      simp only [exec, hst2]
      exact hs

/-- The failed slice is the names of the failed arrivals, in arrival order. -/
theorem collectFailed_eq (l : List result) :
    collectFailed l = (l.filter (fun r => !r.OK)).map (fun r => r.Name) := by
  have key : ∀ (l : List result) (acc : List String),
      l.foldl collectOne acc = acc ++ (l.filter (fun r => !r.OK)).map (fun r => r.Name) := by
    intro l
    induction l with
    | nil => intro acc; simp
    | cons r l ih =>
      intro acc
      simp only [List.foldl_cons, ih]
      cases hr : r.OK <;> simp [collectOne, hr, List.filter_cons]
  simpa [collectFailed] using key l []

theorem render_nil : render ResponseWriter.fresh [] = { status := some 200, body := "ok\n" } := by
  rfl

theorem render_ne_nil (failed : List String) (h : failed ≠ []) :
    render ResponseWriter.fresh failed =
      { status := some 500,
        body := "500 internal server error - unhealthy: " ++ stringsJoin failed ", " ++ "\n" } := by
  have hl : failed.length > 0 := List.length_pos.2 h
  simp [render, hl, httpError, Fprintln, ResponseWriter.Write, ResponseWriter.WriteHeader,
    ResponseWriter.fresh, StatusInternalServerError]


/-! ## Facts about reading the failure body -/

theorem splitItems_ne_nil (cs : List Char) : splitItems cs ≠ [] := by
  induction cs using splitItems.induct with
  | case1 => simp [splitItems]
  | case2 c => simp [splitItems]
  | case3 c d rest h ih => simp [splitItems, h]
  | case4 c d rest h ih =>
    simp only [splitItems, h, if_false]
    cases hsp : splitItems (d :: rest) with
    | nil => exact absurd hsp ih
    | cons a b => simp [consHead]

theorem consHead_append (c : Char) (a b : List (List Char)) (h : a ≠ []) :
    consHead c (a ++ b) = consHead c a ++ b := by
  cases a with
  | nil => exact absurd rfl h
  | cons x xs => rfl

/-- Splitting commutes with joining two texts by the separator. -/
theorem splitItems_append_sep (x rest : List Char) :
    splitItems (x ++ ',' :: ' ' :: rest) = splitItems x ++ splitItems rest := by
  induction x using splitItems.induct with
  | case1 => simp [splitItems]
  | case2 c =>
    simp [splitItems, consHead]
  | case3 c d x h ih =>
    simp [splitItems, h, ih]
  | case4 c d x h ih =>
    have e : (c :: d :: x) ++ ',' :: ' ' :: rest = c :: d :: (x ++ ',' :: ' ' :: rest) := rfl
    have e2 : d :: (x ++ ',' :: ' ' :: rest) = (d :: x) ++ ',' :: ' ' :: rest := rfl
    rw [e]
    simp only [splitItems, h, if_false]
    rw [e2, ih, consHead_append _ _ _ (splitItems_ne_nil _)]

/-- A text without the separator is a single item. -/
theorem splitItems_of_no_sep (x : List Char) (h : hasCommaSpace x = false) :
    splitItems x = [x] := by
  induction x using splitItems.induct with
  | case1 => rfl
  | case2 c => rfl
  | case3 c d x hc ih => simp [hasCommaSpace, hc] at h
  | case4 c d x hc ih =>
    simp only [hasCommaSpace, hc, if_false] at h
    simp only [splitItems, hc, if_false, ih h, consHead]

/-- The first item of a split of a non-empty text is empty or starts with the
first character of the text. -/
theorem splitItems_head (d : Char) (x a : List Char) (b : List (List Char))
    (h : splitItems (d :: x) = a :: b) : a = [] ∨ ∃ a1, a = d :: a1 := by
  cases x with
  | nil =>
    simp [splitItems] at h
    exact Or.inr ⟨[], h.1.symm⟩
  | cons e rest =>
    by_cases hc : d = ',' ∧ e = ' '
    · simp only [splitItems, hc, and_self, if_true] at h
      injection h with h1 h2
      exact Or.inl h1.symm
    · simp only [splitItems, hc, if_false] at h
      cases hsp : splitItems (e :: rest) with
      | nil => exact absurd hsp (splitItems_ne_nil _)
      | cons a2 b2 =>
        rw [hsp] at h
        simp only [consHead] at h
        injection h with h1 h2
        exact Or.inr ⟨a2, h1.symm⟩

/-- An item of a split never contains the separator. -/
theorem no_sep_of_mem_splitItems (x : List Char) :
    ∀ item ∈ splitItems x, hasCommaSpace item = false := by
  induction x using splitItems.induct with
  | case1 =>
    intro item h
    simp [splitItems] at h
    subst h
    rfl
  | case2 c =>
    intro item h
    simp [splitItems] at h
    subst h
    rfl
  | case3 c d x hc ih =>
    intro item h
    simp only [splitItems, hc, and_self, if_true, List.mem_cons] at h
    rcases h with h | h
    · subst h
      rfl
    · exact ih item h
  | case4 c d x hc ih =>
    intro item h
    simp only [splitItems, hc, if_false] at h
    cases hsp : splitItems (d :: x) with
    | nil => exact absurd hsp (splitItems_ne_nil _)
    | cons a b =>
      rw [hsp] at h ih
      simp only [consHead, List.mem_cons] at h
      rcases h with h | h
      · subst h
        have ha : hasCommaSpace a = false := ih a (by simp)
        rcases splitItems_head d x a b hsp with h0 | ⟨a1, h1⟩
        · subst h0
          rfl
        · subst h1
          simp only [hasCommaSpace, hc, if_false]
          exact ha
      · exact ih item (by simp [h])

theorem stringsJoin_cons_cons (a b : String) (rest : List String) :
    (stringsJoin (a :: b :: rest) ", ").data
      = a.data ++ ',' :: ' ' :: (stringsJoin (b :: rest) ", ").data := by
  simp [stringsJoin, String.data_append]

/-- Splitting a join gives the items of the joined texts, text by text. -/
theorem splitItems_join (xs : List String) (h : xs ≠ []) :
    splitItems (stringsJoin xs ", ").data = xs.flatMap (fun x => splitItems x.data) := by
  induction xs with
  | nil => exact absurd rfl h
  | cons a xs ih =>
    cases xs with
    | nil => simp [stringsJoin]
    | cons b rest =>
      rw [stringsJoin_cons_cons, splitItems_append_sep, ih (by simp)]
      simp

theorem dropHead_append (h cs : List Char) : dropHead h (h ++ cs) = some cs := by
  induction h with
  | nil => cases cs <;> rfl
  | cons c h ih => simp [dropHead, ih]

theorem dropNewline_append (cs : List Char) : dropNewline (cs ++ ['\n']) = cs := by
  simp [dropNewline]

/-- The names read off a failure body are the items of the joined names. -/
theorem listedNames_failure (xs : List String) (h : xs ≠ []) :
    listedNames (failureHead ++ stringsJoin xs ", " ++ "\n")
      = (xs.flatMap (fun x => splitItems x.data)).map String.mk := by
  have e : (failureHead ++ stringsJoin xs ", " ++ "\n").data
      = (failureHead.data ++ (stringsJoin xs ", ").data) ++ ['\n'] := by
    simp [String.data_append]
  simp only [listedNames, e, dropNewline_append, dropHead_append, splitItems_join xs h]

/-- When no name contains the separator, the names read off a failure body are
the joined names themselves. -/
theorem listedNames_failure_of_no_sep (xs : List String) (h : xs ≠ [])
    (hs : ∀ x ∈ xs, hasCommaSpace x.data = false) :
    listedNames (failureHead ++ stringsJoin xs ", " ++ "\n") = xs := by
  rw [listedNames_failure xs h]
  induction xs with
  | nil => rfl
  | cons a xs ih =>
    have ha : splitItems a.data = [a.data] := splitItems_of_no_sep _ (hs a (by simp))
    cases xs with
    | nil => simp [ha]
    | cons b rest =>
      have := ih (by simp) (fun x hx => hs x (by simp [hx]))  
      simp only [List.flatMap_cons, List.map_append, ha] at this ⊢
      rw [this]
      rfl


/-! ## Runs of the handler -/

theorem methodRejected_eq_false (m : String) :
    methodRejected m = false ↔ (m = "GET" ∨ m = "HEAD") := by
  simp [methodRejected]
  tauto

/-- The result a checker sends is the spec's classification of its probe. -/
theorem taskOut_eq (t : Task) : taskOut t = [{ toendpoint := t.1, OK := t.2.healthy }] := by
  obtain ⟨ok, h, _, hiff⟩ := checkEndpoint_sends t.1 t.2
  have hok : ok = t.2.healthy := by
    obtain ⟨ep, nr, cd⟩ := t
    cases nr with
    | error e => cases ok <;> simp_all [Probe.healthy]
    | ok u =>
      cases cd with
      | error e => cases ok <;> simp_all [Probe.healthy]
      | ok resp =>
        by_cases hr : 200 ≤ resp.StatusCode ∧ resp.StatusCode < 300
        · cases ok <;> simp_all [Probe.healthy]
        · cases ok <;> simp_all [Probe.healthy]
  simp [taskOut, h, hok]

theorem outcomes_eq_map (ts : List Task) :
    outcomes ts = ts.map (fun t => { toendpoint := t.1, OK := t.2.healthy }) := by
  induction ts with
  | nil => rfl
  | cons t ts ih => simp [outcomes_cons, taskOut_eq, ih]

/-- Every request can be run until the handler returns. -/
theorem health_responds (rq : Request) :
    ∃ (s : List Action) (st : HState), health rq s = some st ∧ st.done = true :=
  completion rq (HState.init.fuel rq) HState.init (inv_init rq) (Nat.le_refl _)

/-- What holds when the handler of an allowed request has returned. -/
theorem health_done_allowed (rq : Request) (s : List Action) (st : HState)
    (hm : rq.Method = "GET" ∨ rq.Method = "HEAD")
    (h : health rq s = some st) (hd : st.done = true) :
    st.received.Perm (outcomes rq.Endpoints) ∧
      st.w = render ResponseWriter.fresh (collectFailed st.received) ∧
      st.spawned = rq.Endpoints.length ∧ st.running = [] ∧ st.statusc = [] := by
  obtain ⟨hi, _⟩ := health_inv rq s st h
  have hr : methodRejected rq.Method = false := (methodRejected_eq_false _).2 hm
  obtain ⟨phase, w, cap, statusc, running, failed, received, spawned, logs⟩ := st
  cases phase with
  | entry => simp [HState.done] at hd
  | spawning rest => simp [HState.done] at hd
  | collecting k => simp [HState.done] at hd
  | returned =>
    simp only [Inv] at hi
    obtain ⟨h1, h2, h3 | h3⟩ := hi
    · rw [hr] at h3
      simp at h3
    · obtain ⟨_, _, h4, h5, h6⟩ := h3
      exact ⟨Multiset.coe_eq_coe.1 h5, h6, h4, h2, h1⟩

/-- What holds in every state of a run of a rejected request. -/
theorem health_rejected (rq : Request) (s : List Action) (st : HState)
    (hm : methodRejected rq.Method = true) (h : health rq s = some st) :
    st.spawned = 0 ∧ st.received = [] ∧ st.running = [] ∧ st.statusc = [] ∧
      (st.done = true →
        st.w = httpError ResponseWriter.fresh "method not allowed" StatusMethodNotAllowed) := by
  obtain ⟨hi, _⟩ := health_inv rq s st h
  obtain ⟨phase, w, cap, statusc, running, failed, received, spawned, logs⟩ := st
  cases phase with
  | entry =>
    simp only [Inv] at hi
    obtain ⟨h1, h2, h3, h4, h5, h6⟩ := hi
    exact ⟨h5, h4, h3, h2, by simp [HState.done]⟩
  | spawning rest =>
    simp only [Inv] at hi
    rw [hm] at hi
    simp at hi
  | collecting k =>
    simp only [Inv] at hi
    rw [hm] at hi
    simp at hi
  | returned =>
    simp only [Inv] at hi
    obtain ⟨h1, h2, h3 | h3⟩ := hi
    · obtain ⟨_, h4, h5, h6⟩ := h3
      exact ⟨h4, h5, h2, h1, fun _ => h6⟩
    · rw [hm] at h3
      simp at h3

theorem collectFailed_eq_nil_iff (l : List result) :
    collectFailed l = [] ↔ ∀ r ∈ l, r.OK = true := by
  rw [collectFailed_eq]
  simp [List.filter_eq_nil_iff]

theorem mem_collectFailed (l : List result) (name : String) :
    name ∈ collectFailed l ↔ ∃ r ∈ l, r.OK = false ∧ r.Name = name := by
  rw [collectFailed_eq]
  simp only [List.mem_map, List.mem_filter]
  constructor
  · rintro ⟨r, ⟨hr, ho⟩, he⟩
    refine ⟨r, hr, ?_, he⟩
    cases hok : r.OK <;> simp_all
  · rintro ⟨r, hr, ho, he⟩
    exact ⟨r, ⟨hr, by simp [ho]⟩, he⟩

theorem collectFailed_perm (l1 l2 : List result) (hp : l1.Perm l2) :
    (collectFailed l1).Perm (collectFailed l2) := by
  rw [collectFailed_eq, collectFailed_eq]
  exact (hp.filter _).map _


/-! ## The claims -/

/-- C1: for a non-empty endpoint list and any answers of the world, a GET or
HEAD request is answered; the collected outcomes are those of the endpoints in
some order; the answer is status 200 with body `ok\n` exactly when every
collected outcome is OK, and it is status 500 otherwise. -/
theorem health_ok_iff_all_ok (rq : Request) (hm : rq.Method = "GET" ∨ rq.Method = "HEAD")
    (hne : rq.Endpoints ≠ []) :
    (∃ (s : List Action) (st : HState), health rq s = some st ∧ st.done = true) ∧
    ∀ (s : List Action) (st : HState), health rq s = some st → st.done = true →
      st.received ≠ [] ∧
      st.received.Perm (rq.Endpoints.map (fun t => { toendpoint := t.1, OK := t.2.healthy })) ∧
      ((st.w.status = some 200 ∧ st.w.body = "ok\n") ↔ ∀ r ∈ st.received, r.OK = true) ∧
      ((¬ ∀ r ∈ st.received, r.OK = true) → st.w.status = some 500) := by
  refine ⟨health_responds rq, ?_⟩
  intro s st h hd
  obtain ⟨hp, hw, _, _, _⟩ := health_done_allowed rq s st hm h hd
  rw [outcomes_eq_map] at hp
  have hrne : st.received ≠ [] := by
    intro h0
    rw [h0] at hp
    have := hp.length_eq
    simp only [List.length_nil, List.length_map] at this
    exact hne (List.eq_nil_of_length_eq_zero this.symm)
  refine ⟨hrne, hp, ?_, ?_⟩
  · by_cases hnil : collectFailed st.received = []
    · rw [hnil, render_nil] at hw
      have hall := (collectFailed_eq_nil_iff _).1 hnil
      simp [hw, hall]
      exact hall
    · rw [render_ne_nil _ hnil] at hw
      have hnall : ¬ ∀ r ∈ st.received, r.OK = true := fun hall =>
        hnil ((collectFailed_eq_nil_iff _).2 hall)
      constructor
      · intro hc
        rw [hw] at hc
        simp at hc
      · intro hall
        exact absurd hall hnall
  · intro hnall
    have hnil : collectFailed st.received ≠ [] := fun hnil =>
      hnall ((collectFailed_eq_nil_iff _).1 hnil)
    rw [render_ne_nil _ hnil] at hw
    rw [hw]

/-- Witness of C1 on scenario B of the spec (one endpoint that answers 200). -/
theorem health_ok_iff_all_ok_witness :
    (scenarioB.Method = "GET" ∨ scenarioB.Method = "HEAD") ∧ scenarioB.Endpoints ≠ [] ∧
    ∃ st : HState, health scenarioB (fifoSchedule 1) = some st ∧ st.done = true ∧
      st.received ≠ [] ∧
      st.received.Perm
        (scenarioB.Endpoints.map (fun t => { toendpoint := t.1, OK := t.2.healthy })) ∧
      ((st.w.status = some 200 ∧ st.w.body = "ok\n") ↔ ∀ r ∈ st.received, r.OK = true) ∧
      ((¬ ∀ r ∈ st.received, r.OK = true) → st.w.status = some 500) :=
  ⟨Or.inr rfl, List.cons_ne_nil _ _, _, rfl, rfl,
    (health_ok_iff_all_ok scenarioB (Or.inr rfl) (List.cons_ne_nil _ _)).2
      (fifoSchedule 1) _ rfl rfl⟩

/-- C3: the one result `checkEndpoint` sends is OK exactly when the request was
built, the client returned a response without error and the status code `s`
satisfies `200 ≤ s < 300`, which is the code's test `s/100 == 2`; every other
probe gives OK = false. -/
theorem checkEndpoint_ok_iff (ep : endpoint) (p : Probe) :
    ∃ r : result, sends (checkEndpoint ep p).events = [r] ∧
      (r.OK = true ↔ ∃ resp, p.newRequest = Except.ok () ∧ p.clientDo = Except.ok resp ∧
        200 ≤ resp.StatusCode ∧ resp.StatusCode < 300) ∧
      (r.OK = true ↔ ∃ resp, p.newRequest = Except.ok () ∧ p.clientDo = Except.ok resp ∧
        resp.StatusCode.tdiv 100 = 2) ∧
      (r.OK = false ↔ ((∃ e, p.newRequest = Except.error e) ∨ (∃ e, p.clientDo = Except.error e) ∨
        ∃ resp, p.clientDo = Except.ok resp ∧ ¬ (200 ≤ resp.StatusCode ∧ resp.StatusCode < 300))) := by
  obtain ⟨ok, hs, _, hiff⟩ := checkEndpoint_sends ep p
  refine ⟨_, hs, hiff, ?_, ?_⟩
  · rw [hiff]
    constructor
    · rintro ⟨resp, h1, h2, h3, h4⟩
      exact ⟨resp, h1, h2, (tdiv_hundred_eq_two _).2 ⟨h3, h4⟩⟩
    · rintro ⟨resp, h1, h2, h3⟩
      exact ⟨resp, h1, h2, ((tdiv_hundred_eq_two _).1 h3).1, ((tdiv_hundred_eq_two _).1 h3).2⟩
  · have hb : ok = false ↔ ¬ (ok = true) := by cases ok <;> simp
    show ok = false ↔ _
    rw [hb, hiff]
    obtain ⟨nr, cd⟩ := p
    cases nr with
    | error e => simp
    | ok u =>
      cases cd with
      | error e => simp
      | ok resp => simp

/-- C4: every invocation of `checkEndpoint` sends exactly one result, which
carries the endpoint it was called with and is OK exactly when the body ended
without a panic; no panic leaves `checkEndpoint`; the three ways the body can
end (normal return, a panic of `xcheck`, the nil dereference of `WithContext`
after a failed `http.NewRequest`) all occur. The same holds on every other
exit path: the reporter of lines 156-162 is the first call deferred, so it
runs last, and for any deferred calls registered after it, any panic value in
flight or none, and even when one of those calls panics itself, it sends
exactly one result for `ep`, OK exactly when no panic is in flight, logs the
panic, and no panic leaves the function. -/
theorem checkEndpoint_sends_once (ep : endpoint) (p : Probe) :
    sends (checkEndpoint ep p).events
        = [{ toendpoint := ep, OK := (checkBody ep p).panic.isNone }] ∧
      (sends (checkEndpoint ep p).events).length = 1 ∧
      (checkEndpoint ep p).escaped = none ∧
      (checkBody ep okServer).panic = none ∧
      (∃ m, (checkBody ep slowServer).panic = some (PanicValue.xerror m)) ∧
      (∃ m, (checkBody ep failServer).panic = some (PanicValue.xerror m)) ∧
      (∃ m, (checkBody ep badURL).panic = some (PanicValue.runtimeError m)) ∧
      ((∃ e, p.newRequest = Except.error e) ↔
        ∃ m, (checkBody ep p).panic = some (PanicValue.runtimeError m)) ∧
      ((checkBody ep p).defers = [reporter ep] ∨
        (checkBody ep p).defers = [closeBody] ++ [reporter ep]) ∧
      (∀ (ds : List Deferred) (cur : Option PanicValue) (evs : List Event),
        sends (runDeferred (ds ++ [reporter ep]) cur evs).1
            = sends (runDeferred ds cur evs).1 ++
              [{ toendpoint := ep, OK := (runDeferred ds cur evs).2.isNone }] ∧
          (runDeferred (ds ++ [reporter ep]) cur evs).2 = none) ∧
      (∀ v : PanicValue,
        runDeferred [reporter ep] (some v) []
          = ([Event.send { toendpoint := ep, OK := false },
              Event.log ("checking endpoint " ++ ep.Name ++ " " ++ ep.URL ++ ": " ++ v.text)],
             none)) ∧
      runDeferred [reporter ep] none [] = ([Event.send { toendpoint := ep, OK := true }], none) ∧
      (∀ (v : PanicValue) (cur : Option PanicValue),
        sends (runDeferred
            [fun _ => { events := [], recovered := false, panic := some v }, reporter ep]
            cur []).1 = [{ toendpoint := ep, OK := false }] ∧
          (runDeferred
            [fun _ => { events := [], recovered := false, panic := some v }, reporter ep]
            cur []).2 = none) ∧
      (∀ cur : Option PanicValue,
        sends (runDeferred [closeBody, reporter ep] cur []).1
            = [{ toendpoint := ep, OK := cur.isNone }] ∧
          (runDeferred [closeBody, reporter ep] cur []).2 = none) := by
  obtain ⟨ok, hs, hesc, _⟩ := checkEndpoint_sends ep p
  refine ⟨?_, by rw [hs]; rfl, hesc, rfl, ⟨_, rfl⟩, ⟨_, rfl⟩, ⟨_, rfl⟩, ?_, ?_, ?_, ?_, rfl, ?_, ?_⟩
  · obtain ⟨nr, cd⟩ := p
    cases nr with
    | error e => simp [checkEndpoint, checkBody, runDeferred, reporter, sends]
    | ok u =>
      cases cd with
      | error e => simp [checkEndpoint, checkBody, runDeferred, reporter, xcheck, sends]
      | ok resp =>
        by_cases hc : resp.StatusCode.tdiv 100 = 2
        · simp [checkEndpoint, checkBody, runDeferred, reporter, xcheck, closeBody, hc, sends]
        · simp [checkEndpoint, checkBody, runDeferred, reporter, xcheck, closeBody, hc, sends]
  · obtain ⟨nr, cd⟩ := p
    cases nr with
    | error e => simp [checkBody]
    | ok u =>
      cases cd with
      | error e => simp [checkBody, xcheck]
      | ok resp =>
        by_cases hc : resp.StatusCode.tdiv 100 = 2
        · simp [checkBody, xcheck, hc]
        · simp [checkBody, xcheck, hc]
  · obtain ⟨nr, cd⟩ := p
    cases nr with
    | error e => exact Or.inl rfl
    | ok u =>
      cases cd with
      | error e => exact Or.inl rfl
      | ok resp =>
        by_cases hc : resp.StatusCode.tdiv 100 = 2
        · right
          simp [checkBody, xcheck, hc]
        · right
          simp [checkBody, xcheck, hc]
  · intro ds cur evs
    rw [runDeferred_append]
    exact runDeferred_reporter ep _ _
  · intro v
    rfl
  · intro v cur
    exact ⟨by simp [runDeferred, reporter, sends], by simp [runDeferred, reporter]⟩
  · intro cur
    cases cur with
    | none => exact ⟨rfl, rfl⟩
    | some v => exact ⟨rfl, rfl⟩

theorem collectFailed_congr (l1 l2 : List result)
    (hk : l1.map (fun r => (r.Name, r.OK)) = l2.map (fun r => (r.Name, r.OK))) :
    collectFailed l1 = collectFailed l2 := by
  have key : ∀ l : List result, collectFailed l
      = ((l.map (fun r => (r.Name, r.OK))).filter (fun k => !k.2)).map (fun k => k.1) := by
    intro l
    rw [collectFailed_eq]
    induction l with
    | nil => rfl
    | cons r l ih =>
      cases hr : r.OK <;> simp [List.filter_cons, hr, ih]
  rw [key l1, key l2, hk]

/-- C6: the verdict of the collection loop does not depend on the arrival
order: permuting the outcomes leaves the response status unchanged and
permutes the failed names, so the set of failed names, and the set of names a
client reads off the body, stay the same. -/
theorem verdict_order_independent (l1 l2 : List result) (hp : l1.Perm l2) :
    (render ResponseWriter.fresh (collectFailed l1)).status
        = (render ResponseWriter.fresh (collectFailed l2)).status ∧
      (collectFailed l1).Perm (collectFailed l2) ∧
      (∀ name, name ∈ collectFailed l1 ↔ name ∈ collectFailed l2) ∧
      (∀ name, name ∈ listedNames (render ResponseWriter.fresh (collectFailed l1)).body ↔
        name ∈ listedNames (render ResponseWriter.fresh (collectFailed l2)).body) := by
  have hf := collectFailed_perm l1 l2 hp
  by_cases h1 : collectFailed l1 = []
  · have h2 : collectFailed l2 = [] := by
      rw [h1] at hf
      exact List.perm_nil.1 hf.symm
    rw [h1, h2]
    simp
  · have h2 : collectFailed l2 ≠ [] := by
      intro h2
      rw [h2] at hf
      exact h1 (List.perm_nil.1 hf)
    refine ⟨?_, hf, fun name => hf.mem_iff, ?_⟩
    · rw [render_ne_nil _ h1, render_ne_nil _ h2]
    · intro name
      rw [render_ne_nil _ h1, render_ne_nil _ h2]
      have e1 := listedNames_failure _ h1
      have e2 := listedNames_failure _ h2
      simp only [failureHead] at e1 e2
      rw [e1, e2]
      simp only [List.mem_map, List.mem_flatMap, hf.mem_iff]

/-- Witness of C6: three outcomes, two of them failed, in two arrival orders. -/
theorem verdict_order_independent_witness :
    ([{ toendpoint := { URL := "u1", Name := "a" }, OK := false },
      { toendpoint := { URL := "u2", Name := "b" }, OK := true },
      { toendpoint := { URL := "u3", Name := "c" }, OK := false }] : List result).Perm
      [{ toendpoint := { URL := "u3", Name := "c" }, OK := false },
       { toendpoint := { URL := "u1", Name := "a" }, OK := false },
       { toendpoint := { URL := "u2", Name := "b" }, OK := true }] ∧
    (render ResponseWriter.fresh (collectFailed
        [{ toendpoint := { URL := "u1", Name := "a" }, OK := false },
         { toendpoint := { URL := "u2", Name := "b" }, OK := true },
         { toendpoint := { URL := "u3", Name := "c" }, OK := false }])).status
      = (render ResponseWriter.fresh (collectFailed
        [{ toendpoint := { URL := "u3", Name := "c" }, OK := false },
         { toendpoint := { URL := "u1", Name := "a" }, OK := false },
         { toendpoint := { URL := "u2", Name := "b" }, OK := true }])).status ∧
    (collectFailed
        [{ toendpoint := { URL := "u1", Name := "a" }, OK := false },
         { toendpoint := { URL := "u2", Name := "b" }, OK := true },
         { toendpoint := { URL := "u3", Name := "c" }, OK := false }]).Perm
      (collectFailed
        [{ toendpoint := { URL := "u3", Name := "c" }, OK := false },
         { toendpoint := { URL := "u1", Name := "a" }, OK := false },
         { toendpoint := { URL := "u2", Name := "b" }, OK := true }]) :=
  ⟨by decide,
   (verdict_order_independent _ _ (by decide)).1,
   (verdict_order_independent _ _ (by decide)).2.1⟩

/-- Two completed runs of one allowed request, under any two schedules, answer
with the same status and report the same failed names up to order. -/
theorem health_runs_agree (rq : Request) (hm : rq.Method = "GET" ∨ rq.Method = "HEAD")
    (s1 s2 : List Action) (st1 st2 : HState)
    (h1 : health rq s1 = some st1) (h2 : health rq s2 = some st2)
    (hd1 : st1.done = true) (hd2 : st2.done = true) :
    st1.w.status = st2.w.status ∧
      (collectFailed st1.received).Perm (collectFailed st2.received) := by
  obtain ⟨hp1, hw1, _⟩ := health_done_allowed rq s1 st1 hm h1 hd1
  obtain ⟨hp2, hw2, _⟩ := health_done_allowed rq s2 st2 hm h2 hd2
  have hp : st1.received.Perm st2.received := hp1.trans hp2.symm
  have hf := collectFailed_perm _ _ hp
  refine ⟨?_, hf⟩
  rw [hw1, hw2]
  by_cases e1 : collectFailed st1.received = []
  · have e2 : collectFailed st2.received = [] := by
      rw [e1] at hf
      exact List.perm_nil.1 hf.symm
    rw [e1, e2]
  · have e2 : collectFailed st2.received ≠ [] := by
      intro e2
      rw [e2] at hf
      exact e1 (List.perm_nil.1 hf)
    rw [render_ne_nil _ e1, render_ne_nil _ e2]

/-- C8: the response is determined by the request method and the sequence of
(Name, OK) pairs of the collected outcomes: two completed runs with the same
method whose collected outcomes agree on names and OK values, in arrival
order, write the same status and body, whatever the URLs and error details. -/
theorem response_depends_on_names_and_ok (rq1 rq2 : Request) (s1 s2 : List Action)
    (st1 st2 : HState) (hmeth : rq1.Method = rq2.Method)
    (h1 : health rq1 s1 = some st1) (h2 : health rq2 s2 = some st2)
    (hd1 : st1.done = true) (hd2 : st2.done = true)
    (hk : st1.received.map (fun r => (r.Name, r.OK))
        = st2.received.map (fun r => (r.Name, r.OK))) :
    st1.w = st2.w := by
  cases hr : methodRejected rq1.Method with
  | true =>
    have hr2 : methodRejected rq2.Method = true := by rw [← hmeth]; exact hr
    rw [(health_rejected rq1 s1 st1 hr h1).2.2.2.2 hd1,
      (health_rejected rq2 s2 st2 hr2 h2).2.2.2.2 hd2]
  | false =>
    have hm1 := (methodRejected_eq_false _).1 hr
    have hm2 : rq2.Method = "GET" ∨ rq2.Method = "HEAD" := by rw [← hmeth]; exact hm1
    rw [(health_done_allowed rq1 s1 st1 hm1 h1 hd1).2.1,
      (health_done_allowed rq2 s2 st2 hm2 h2 hd2).2.1, collectFailed_congr _ _ hk]

/-- Witness of C8: scenario A, and the same names and outcomes with other URLs
and another failure cause. -/
theorem response_depends_on_names_and_ok_witness :
    ∃ st1 st2 : HState,
      scenarioA.Method = scenarioA2.Method ∧
      health scenarioA (fifoSchedule 2) = some st1 ∧
      health scenarioA2 (fifoSchedule 2) = some st2 ∧
      st1.done = true ∧ st2.done = true ∧
      st1.received.map (fun r => (r.Name, r.OK)) = st2.received.map (fun r => (r.Name, r.OK)) ∧
      st1.received.map (fun r => r.URL) ≠ st2.received.map (fun r => r.URL) ∧
      st1.logs ≠ st2.logs ∧
      st1.w = st2.w :=
  ⟨_, _, rfl, rfl, rfl, rfl, rfl, rfl, by decide, by decide,
    response_depends_on_names_and_ok scenarioA scenarioA2 (fifoSchedule 2) (fifoSchedule 2) _ _
      rfl rfl rfl rfl rfl rfl⟩


/-- Counting facts of the invariant: every spawned checker is running, has its
result buffered, or had it received; the buffer is within its capacity; the
capacity is the number of endpoints once a checker exists. -/
theorem inv_counts (rq : Request) (st : HState) (hi : Inv rq st) :
    st.running.length + st.statusc.length + st.received.length = st.spawned ∧
      st.spawned ≤ rq.Endpoints.length ∧
      st.statusc.length ≤ st.cap ∧
      (0 < st.spawned → st.cap = rq.Endpoints.length) ∧
      (methodRejected rq.Method = false → st.done = true →
        st.received.length = rq.Endpoints.length ∧ st.spawned = rq.Endpoints.length) := by
  obtain ⟨phase, w, cap, statusc, running, failed, received, spawned, logs⟩ := st
  cases phase with
  | entry =>
    simp only [Inv] at hi
    obtain ⟨h1, h2, h3, h4, h5, h6⟩ := hi
    subst h1 h2 h3 h4 h5
    simp [HState.done]
  | spawning rest =>
    simp only [Inv] at hi
    obtain ⟨h1, h2, h3, h4, pre, h5, h6, h7⟩ := hi
    have h8 := congrArg Multiset.card h7
    have h9 := congrArg List.length h5
    simp [outcomes_length] at h8 h9
    subst h3
    simp [HState.done]
    omega
  | collecting k =>
    simp only [Inv] at hi
    obtain ⟨h1, h2, h3, h4, h5, h6, h7⟩ := hi
    have h8 := congrArg Multiset.card h7
    simp [outcomes_length] at h8
    simp [HState.done]
    omega
  | returned =>
    simp only [Inv] at hi
    obtain ⟨h1, h2, h3 | h3⟩ := hi
    · obtain ⟨h4, h5, h6, _⟩ := h3
      subst h1 h2 h5 h6
      simp [h4]
    · obtain ⟨h4, h5, h6, h7, _⟩ := h3
      have h8 := congrArg Multiset.card h7
      simp [outcomes_length] at h8
      subst h1 h2
      simp [h4, h5, h6, h8]

/-- C9: in every interleaving of one request, the results sent and not yet
received never exceed the capacity of the channel, which is the number of
endpoints; no running checker is blocked on its send; every spawned checker is
running, buffered or received, and at most one checker per endpoint is
spawned; the run takes at most `3 * len(endpoints) + 3` steps, can always be
continued until the handler returns, is never stuck before that, and when the
handler of an allowed request has returned it has spawned one checker per
endpoint and received exactly `len(endpoints)` results. -/
theorem channel_never_blocks (rq : Request) (s : List Action) (st : HState)
    (h : health rq s = some st) :
    st.statusc.length ≤ st.cap ∧
      (0 < st.spawned → st.cap = rq.Endpoints.length) ∧
      (∀ i, i < st.running.length → (checkerStep st i).isSome = true) ∧
      st.running.length + st.statusc.length + st.received.length = st.spawned ∧
      st.spawned ≤ rq.Endpoints.length ∧
      (methodRejected rq.Method = false → st.done = true →
        st.received.length = rq.Endpoints.length ∧ st.spawned = rq.Endpoints.length) ∧
      s.length ≤ 3 * rq.Endpoints.length + 3 ∧
      (st.done = false → ∃ a, (step rq st a).isSome = true) ∧
      (∃ (s1 : List Action) (st1 : HState),
        health rq (s ++ s1) = some st1 ∧ st1.done = true) := by
  obtain ⟨hi, hf⟩ := health_inv rq s st h
  obtain ⟨c1, c2, c3, c4, c5⟩ := inv_counts rq st hi
  refine ⟨c3, c4, fun i hlt => checkerStep_enabled rq st i hi hlt, c1, c2, c5, by omega,
    fun hd => progress rq st hi hd, ?_⟩
  obtain ⟨s1, st1, hs1, hd1⟩ := completion rq (st.fuel rq) st hi (Nat.le_refl _)
  refine ⟨s1, st1, ?_, hd1⟩
  unfold health at h ⊢
  rw [exec_append, h]
  exact hs1

/-- Witness of C9: scenario A after the handler spawned both checkers and both
reported, before any receive: the buffer holds two results, its capacity. -/
theorem channel_never_blocks_witness :
    ∃ st : HState,
      health scenarioA [Action.handler, Action.handler, Action.handler, Action.checker 1,
        Action.checker 0] = some st ∧
      st.statusc.length = 2 ∧ st.cap = 2 ∧
      (st.statusc.length ≤ st.cap ∧
      (0 < st.spawned → st.cap = scenarioA.Endpoints.length) ∧
      (∀ i, i < st.running.length → (checkerStep st i).isSome = true) ∧
      st.running.length + st.statusc.length + st.received.length = st.spawned ∧
      st.spawned ≤ scenarioA.Endpoints.length ∧
      (methodRejected scenarioA.Method = false → st.done = true →
        st.received.length = scenarioA.Endpoints.length ∧
          st.spawned = scenarioA.Endpoints.length) ∧
      [Action.handler, Action.handler, Action.handler, Action.checker 1,
        Action.checker 0].length ≤ 3 * scenarioA.Endpoints.length + 3 ∧
      (st.done = false → ∃ a, (step scenarioA st a).isSome = true) ∧
      (∃ (s1 : List Action) (st1 : HState),
        health scenarioA ([Action.handler, Action.handler, Action.handler, Action.checker 1,
          Action.checker 0] ++ s1) = some st1 ∧ st1.done = true)) :=
  ⟨_, rfl, rfl, rfl, channel_never_blocks scenarioA _ _ rfl⟩

/-- C10: with no endpoint configured, a GET or HEAD request is answered, no
checker is ever spawned, no outcome is ever collected, and the answer is
status 200 with body `ok\n`. -/
theorem empty_endpoints_healthy (rq : Request) (hm : rq.Method = "GET" ∨ rq.Method = "HEAD")
    (he : rq.Endpoints = []) :
    (∃ (s : List Action) (st : HState), health rq s = some st ∧ st.done = true) ∧
    ∀ (s : List Action) (st : HState), health rq s = some st →
      st.spawned = 0 ∧ st.running = [] ∧ st.statusc = [] ∧ st.received = [] ∧
      (st.done = true → st.w = { status := some 200, body := "ok\n" }) := by
  refine ⟨health_responds rq, ?_⟩
  intro s st h
  obtain ⟨hi, _⟩ := health_inv rq s st h
  obtain ⟨c1, c2, _, _, _⟩ := inv_counts rq st hi
  have hn : rq.Endpoints.length = 0 := by rw [he]; rfl
  have hsp : st.spawned = 0 := by omega
  have hr : st.received = [] := List.eq_nil_of_length_eq_zero (by omega)
  refine ⟨hsp, List.eq_nil_of_length_eq_zero (by omega), List.eq_nil_of_length_eq_zero (by omega),
    hr, ?_⟩
  intro hd
  rw [(health_done_allowed rq s st hm h hd).2.1, hr]
  rfl

/-- Witness of C10: a GET request with no endpoint. -/
theorem empty_endpoints_healthy_witness :
    (emptyRequest.Method = "GET" ∨ emptyRequest.Method = "HEAD") ∧ emptyRequest.Endpoints = [] ∧
    ∃ st : HState, health emptyRequest (fifoSchedule 0) = some st ∧ st.done = true ∧
      st.spawned = 0 ∧ st.running = [] ∧ st.statusc = [] ∧ st.received = [] ∧
      (st.done = true → st.w = { status := some 200, body := "ok\n" }) :=
  ⟨Or.inl rfl, rfl, _, rfl, rfl,
    (empty_endpoints_healthy emptyRequest (Or.inl rfl) rfl).2 (fifoSchedule 0) _ rfl⟩


/-- In a completed run of an allowed request, the failed names are those of the
failing tasks. -/
theorem mem_failed_iff (rq : Request) (s : List Action) (st : HState)
    (hm : rq.Method = "GET" ∨ rq.Method = "HEAD")
    (h : health rq s = some st) (hd : st.done = true) (name : String) :
    name ∈ collectFailed st.received ↔
      ∃ t ∈ rq.Endpoints, t.2.healthy = false ∧ t.1.Name = name := by
  obtain ⟨hp, _⟩ := health_done_allowed rq s st hm h hd
  rw [outcomes_eq_map] at hp
  rw [mem_collectFailed]
  constructor
  · rintro ⟨r, hr, ho, hn⟩
    obtain ⟨t, ht, rfl⟩ := List.mem_map.1 (hp.mem_iff.1 hr)
    exact ⟨t, ht, ho, hn⟩
  · rintro ⟨t, ht, ho, hn⟩
    exact ⟨_, hp.mem_iff.2 (List.mem_map.2 ⟨t, ht, rfl⟩), ho, hn⟩

/-- C2 (amended): when some endpoint fails, a GET or HEAD request is answered
with status 500, and the names a client reads off the body (the comma-space
separated items after `unhealthy: `, up to the final newline) are exactly the
names of the failing endpoints if and only if no failing endpoint has a name
that contains the separator `", "`. -/
theorem listed_names_exact_iff (rq : Request) (hm : rq.Method = "GET" ∨ rq.Method = "HEAD")
    (hF : ∃ t ∈ rq.Endpoints, t.2.healthy = false) :
    (∃ (s : List Action) (st : HState), health rq s = some st ∧ st.done = true) ∧
    ∀ (s : List Action) (st : HState), health rq s = some st → st.done = true →
      st.w.status = some 500 ∧
      ((∀ name, name ∈ listedNames st.w.body ↔
          ∃ t ∈ rq.Endpoints, t.2.healthy = false ∧ t.1.Name = name) ↔
        ∀ t ∈ rq.Endpoints, t.2.healthy = false → hasCommaSpace t.1.Name.data = false) := by
  refine ⟨health_responds rq, ?_⟩
  intro s st h hd
  have hmem := mem_failed_iff rq s st hm h hd
  obtain ⟨_, hw, _⟩ := health_done_allowed rq s st hm h hd
  have hne : collectFailed st.received ≠ [] := by
    obtain ⟨t, ht, ho⟩ := hF
    have := (hmem t.1.Name).2 ⟨t, ht, ho, rfl⟩
    exact List.ne_nil_of_mem this
  rw [render_ne_nil _ hne] at hw
  have hbody : st.w.body
      = failureHead ++ stringsJoin (collectFailed st.received) ", " ++ "\n" := by
    rw [hw]
    rfl
  refine ⟨by rw [hw], ?_⟩
  rw [hbody]
  constructor
  · intro hall t ht ho
    have h1 := (hall t.1.Name).2 ⟨t, ht, ho, rfl⟩
    rw [listedNames_failure _ hne] at h1
    obtain ⟨item, hitem, he⟩ := List.mem_map.1 h1
    obtain ⟨x, _, hx⟩ := List.mem_flatMap.1 hitem
    have hns := no_sep_of_mem_splitItems x.data item hx
    rw [← he]
    exact hns
  · intro hsep name
    rw [listedNames_failure_of_no_sep _ hne, hmem]
    intro x hx
    obtain ⟨t, ht, ho, hn⟩ := (hmem x).1 hx
    rw [← hn]
    exact hsep t ht ho

/-- Witness of C2 (amended) on scenario A of the spec: the body lists `b`. -/
theorem listed_names_exact_iff_witness :
    (scenarioA.Method = "GET" ∨ scenarioA.Method = "HEAD") ∧
    (∃ t ∈ scenarioA.Endpoints, t.2.healthy = false) ∧
    ∃ st : HState, health scenarioA (fifoSchedule 2) = some st ∧ st.done = true ∧
      listedNames st.w.body = ["b"] ∧
      st.w.status = some 500 ∧
      ((∀ name, name ∈ listedNames st.w.body ↔
          ∃ t ∈ scenarioA.Endpoints, t.2.healthy = false ∧ t.1.Name = name) ↔
        ∀ t ∈ scenarioA.Endpoints, t.2.healthy = false →
          hasCommaSpace t.1.Name.data = false) :=
  ⟨Or.inl rfl, ⟨_, List.mem_cons_of_mem _ (List.mem_cons_self _ _), rfl⟩, _, rfl, rfl, rfl,
    (listed_names_exact_iff scenarioA (Or.inl rfl)
      ⟨_, List.mem_cons_of_mem _ (List.mem_cons_self _ _), rfl⟩).2 (fifoSchedule 2) _ rfl rfl⟩

/-- C2 as stated fails: with a healthy endpoint `a` and a failing endpoint
`a, b`, the answer is status 500 with body
`500 internal server error - unhealthy: a, b` and a newline; the items listed
are `a` and `b`: the healthy `a` is listed and the failing `a, b` is not. -/
theorem listed_names_counterexample :
    commaRequest.Method = "GET" ∧
    commaRequest.Endpoints.map (fun t => (t.1.Name, t.2.healthy))
      = [("a", true), ("a, b", false)] ∧
    (health commaRequest (fifoSchedule 2)).map
        (fun st => (st.done, st.w.status, st.w.body, listedNames st.w.body))
      = some (true, some 500, "500 internal server error - unhealthy: a, b\n", ["a", "b"]) ∧
    failingNames commaRequest.Endpoints = ["a, b"] ∧
    "a" ∈ listedNames "500 internal server error - unhealthy: a, b\n" ∧
    "a" ∉ failingNames commaRequest.Endpoints ∧
    "a, b" ∉ listedNames "500 internal server error - unhealthy: a, b\n" ∧
    ¬ (∀ (rq : Request), (rq.Method = "GET" ∨ rq.Method = "HEAD") →
        (∃ t ∈ rq.Endpoints, t.2.healthy = false) →
        ∀ (s : List Action) (st : HState), health rq s = some st → st.done = true →
          st.w.status = some 500 ∧
          ∀ name, name ∈ listedNames st.w.body ↔
            ∃ t ∈ rq.Endpoints, t.2.healthy = false ∧ t.1.Name = name) := by
  refine ⟨rfl, rfl, rfl, rfl, by decide, by decide, by decide, ?_⟩
  intro hall
  have h1 := hall commaRequest (Or.inl rfl)
    ⟨_, List.mem_cons_of_mem _ (List.mem_cons_self _ _), rfl⟩ (fifoSchedule 2) _ rfl rfl
  have h2 := (h1.2 "a").1 (by decide)
  obtain ⟨t, ht, ho, hn⟩ := h2
  simp [commaRequest] at ht
  rcases ht with ht | ht
  · subst ht
    simp [Probe.healthy, okServer] at ho
  · subst ht
    simp at hn


/-- C5 (amended): a request whose method is neither GET nor HEAD is answered;
in no state of its run has a checker been spawned, is a checker running, is a
result buffered or has an outcome been collected; and the answer is status 405
with body `method not allowed` followed by a newline. -/
theorem rejected_method (rq : Request) (hg : rq.Method ≠ "GET") (hh : rq.Method ≠ "HEAD") :
    (∃ (s : List Action) (st : HState), health rq s = some st ∧ st.done = true) ∧
    ∀ (s : List Action) (st : HState), health rq s = some st →
      st.spawned = 0 ∧ st.received = [] ∧ st.running = [] ∧ st.statusc = [] ∧
      (st.done = true → st.w.status = some 405 ∧ st.w.body = "method not allowed\n") := by
  refine ⟨health_responds rq, ?_⟩
  intro s st h
  have hr : methodRejected rq.Method = true := by
    cases hc : methodRejected rq.Method with
    | true => rfl
    | false =>
      rcases (methodRejected_eq_false _).1 hc with h1 | h1
      · exact absurd h1 hg
      · exact absurd h1 hh
  obtain ⟨h1, h2, h3, h4, h5⟩ := health_rejected rq s st hr h
  refine ⟨h1, h2, h3, h4, ?_⟩
  intro hd
  rw [h5 hd]
  exact ⟨rfl, rfl⟩

/-- Witness of C5 (amended): a POST request. -/
theorem rejected_method_witness :
    postRequest.Method ≠ "GET" ∧ postRequest.Method ≠ "HEAD" ∧
    ∃ st : HState, health postRequest [Action.handler] = some st ∧ st.done = true ∧
      st.spawned = 0 ∧ st.received = [] ∧ st.running = [] ∧ st.statusc = [] ∧
      (st.done = true → st.w.status = some 405 ∧ st.w.body = "method not allowed\n") :=
  ⟨by decide, by decide, _, rfl, rfl,
    (rejected_method postRequest (by decide) (by decide)).2 [Action.handler] _ rfl⟩

/-- C5 as stated fails on the body: a POST request is answered with status 405
and the body `method not allowed` followed by a newline, which is not the
text `method not allowed`. -/
theorem rejected_method_body_counterexample :
    postRequest.Method ≠ "GET" ∧ postRequest.Method ≠ "HEAD" ∧
    (health postRequest [Action.handler]).map (fun st => (st.done, st.w.status, st.w.body))
      = some (true, some 405, "method not allowed\n") ∧
    "method not allowed\n" ≠ "method not allowed" ∧
    ¬ (∀ (rq : Request), rq.Method ≠ "GET" → rq.Method ≠ "HEAD" →
        ∀ (s : List Action) (st : HState), health rq s = some st → st.done = true →
          st.w.status = some 405 ∧ st.w.body = "method not allowed") := by
  refine ⟨by decide, by decide, rfl, by decide, ?_⟩
  intro hall
  have h1 := hall postRequest (by decide) (by decide) [Action.handler] _ rfl rfl
  exact absurd h1.2 (by decide)

/-- C7 (amended): when some endpoint fails, a GET or HEAD request is answered;
the collected outcomes then contain a failed one, the status is 500 and the
body is `500 internal server error - unhealthy: `, the names of the failed
outcomes in the order they were received joined with `, `, and a final
newline. -/
theorem failure_body (rq : Request) (hm : rq.Method = "GET" ∨ rq.Method = "HEAD")
    (hF : ∃ t ∈ rq.Endpoints, t.2.healthy = false) :
    (∃ (s : List Action) (st : HState), health rq s = some st ∧ st.done = true) ∧
    ∀ (s : List Action) (st : HState), health rq s = some st → st.done = true →
      (∃ r ∈ st.received, r.OK = false) ∧
      st.w.status = some 500 ∧
      st.w.body = "500 internal server error - unhealthy: " ++
        stringsJoin ((st.received.filter (fun r => !r.OK)).map (fun r => r.Name)) ", " ++ "\n" := by
  refine ⟨health_responds rq, ?_⟩
  intro s st h hd
  obtain ⟨hp, hw, _⟩ := health_done_allowed rq s st hm h hd
  rw [outcomes_eq_map] at hp
  obtain ⟨t, ht, ho⟩ := hF
  have hr : ∃ r ∈ st.received, r.OK = false :=
    ⟨_, hp.mem_iff.2 (List.mem_map.2 ⟨t, ht, rfl⟩), ho⟩
  have hne : collectFailed st.received ≠ [] := by
    obtain ⟨r, hr1, hr2⟩ := hr
    exact List.ne_nil_of_mem ((mem_collectFailed _ _).2 ⟨r, hr1, hr2, rfl⟩)
  rw [render_ne_nil _ hne, collectFailed_eq] at hw
  refine ⟨hr, ?_, ?_⟩ <;> rw [hw]

/-- Witness of C7 (amended): three endpoints, `a` and `c` failing, with `c`
reporting before `a`: the body lists `c, a`. -/
theorem failure_body_witness :
    (threeRequest.Method = "GET" ∨ threeRequest.Method = "HEAD") ∧
    (∃ t ∈ threeRequest.Endpoints, t.2.healthy = false) ∧
    ∃ st : HState,
      health threeRequest reverseSchedule = some st ∧ st.done = true ∧
      st.w.body = "500 internal server error - unhealthy: c, a\n" ∧
      (∃ r ∈ st.received, r.OK = false) ∧
      st.w.status = some 500 ∧
      st.w.body = "500 internal server error - unhealthy: " ++
        stringsJoin ((st.received.filter (fun r => !r.OK)).map (fun r => r.Name)) ", " ++ "\n" :=
  ⟨Or.inl rfl, ⟨_, List.mem_cons_self _ _, rfl⟩, _, rfl, rfl, rfl,
    (failure_body threeRequest (Or.inl rfl) ⟨_, List.mem_cons_self _ _, rfl⟩).2
      reverseSchedule _ rfl rfl⟩

/-- C7 as stated fails on the body: in scenario A the body is
`500 internal server error - unhealthy: b` followed by a newline, which is not
the fixed text followed by the joined names. -/
theorem failure_body_counterexample :
    (health scenarioA (fifoSchedule 2)).map
        (fun st => (st.done, st.received.map (fun r => (r.Name, r.OK)), st.w.status, st.w.body))
      = some (true, [("a", true), ("b", false)], some 500,
          "500 internal server error - unhealthy: b\n") ∧
    "500 internal server error - unhealthy: " ++ stringsJoin ["b"] ", "
      = "500 internal server error - unhealthy: b" ∧
    "500 internal server error - unhealthy: b\n" ≠ "500 internal server error - unhealthy: b" ∧
    ¬ (∀ (rq : Request), (rq.Method = "GET" ∨ rq.Method = "HEAD") →
        ∀ (s : List Action) (st : HState), health rq s = some st → st.done = true →
          (∃ r ∈ st.received, r.OK = false) →
          st.w.status = some 500 ∧
          st.w.body = "500 internal server error - unhealthy: " ++
            stringsJoin ((st.received.filter (fun r => !r.OK)).map (fun r => r.Name)) ", ") := by
  refine ⟨rfl, rfl, by decide, ?_⟩
  intro hall
  have h1 := hall scenarioA (Or.inl rfl) (fifoSchedule 2) _ rfl rfl
    ⟨_, List.mem_cons_of_mem _ (List.mem_cons_self _ _), rfl⟩
  exact absurd h1.2 (by decide)

end Health
